import Mathlib

/-!
Verification development for the Vocabulary Quadrant browser client.

The embedding models the interaction-state handlers of `src/App.tsx` and the
fetch/validation logic of the Gemini service module as pure Lean functions.
JavaScript runtime values produced by `JSON.parse` are modelled by the `Json`
inductive below; since TypeScript types are erased at runtime, the
`WordDetails` snapshot held by the application is exactly such a parsed JSON
value, and the model keeps it as `Json`.  JSON numbers are modelled as
integers (no claim exercises fractional numbers).  The persistence layer
(`localStorage` plus `JSON.stringify`/`JSON.parse`) is modelled at the level
of JSON values: for the cycle-free, string/array/object data this program
stores, stringify-then-parse is the identity on the JSON value, so the store
holds either nothing, unparseable text, or a JSON value.
-/

/-- A JavaScript value as produced by `JSON.parse`: null, boolean, number
(modelled as an integer), string, array, or object (ordered key/value list). -/
inductive Json where
  | null
  | bool (b : Bool)
  | num (n : Int)
  | str (s : String)
  | arr (elems : List Json)
  | obj (fields : List (String × Json))

/-- Last-occurrence field lookup, matching the semantics of JavaScript object
literals built by `JSON.parse` (a later duplicate key overwrites an earlier one). -/
def lookupLast (kvs : List (String × Json)) (k : String) : Option Json :=
  match kvs with
  | [] => none
  | (k', v) :: rest =>
    match lookupLast rest k with
    | some r => some r
    | none => if k' == k then some v else none

/-- JavaScript property access `j.k` modelled on JSON values: defined on
objects, `undefined` (here `none`) on every non-object value. -/
def getField (j : Json) (k : String) : Option Json :=
  match j with
  | .obj kvs => lookupLast kvs k
  | _ => none

/-- JavaScript truthiness of a JSON value: `null`, `false`, `0` and the empty
string are falsy; every array and object is truthy. -/
def jsTruthy : Json → Bool
  | .null => false
  | .bool b => b
  | .num n => n != 0
  | .str s => s != ""
  | .arr _ => true
  | .obj _ => true

mutual

/-- `String(v)` for a JSON value, as used by `new Error(v)` to build the error
message: strings pass through, arrays join their elements with commas (null
elements becoming empty), objects print as `[object Object]`. -/
def jsToString : Json → String
  | .null => "null"
  | .bool b => if b then "true" else "false"
  | .num n => toString n
  | .str s => s
  | .arr xs => String.intercalate "," (jsToStringElems xs)
  | .obj _ => "[object Object]"

/-- Stringification of array elements for `jsToString` (a `null` element
stringifies to the empty string inside an array). -/
def jsToStringElems : List Json → List String
  | [] => []
  | .null :: rest => "" :: jsToStringElems rest
  | j :: rest => jsToString j :: jsToStringElems rest

end

/-- The characters removed by JavaScript `String.prototype.trim`
(ECMA-262 WhiteSpace and LineTerminator code points). -/
def isJsWhitespace (c : Char) : Bool :=
  let n := c.toNat
  n == 0x09 || n == 0x0A || n == 0x0B || n == 0x0C || n == 0x0D ||
  n == 0x20 || n == 0xA0 || n == 0x1680 ||
  (decide (0x2000 ≤ n) && decide (n ≤ 0x200A)) ||
  n == 0x2028 || n == 0x2029 || n == 0x202F || n == 0x205F ||
  n == 0x3000 || n == 0xFEFF

/-- JavaScript `s.trim()`: drop leading and trailing whitespace. -/
def jsTrim (s : String) : String :=
  String.mk (((s.data.dropWhile isJsWhitespace).reverse.dropWhile isJsWhitespace).reverse)

/-- JavaScript `s.toLowerCase()`, modelled characterwise. -/
def jsToLowerCase (s : String) : String :=
  String.mk (s.data.map Char.toLower)

/-- A saved word entry as persisted by the application: the head word, the
`WordDetails` snapshot (at runtime, the parsed JSON value returned by the
fetch), and the user-curated similar-words list. -/
structure SavedWord where
  word : String
  details : Json
  similarWords : List String

/-- The outcome of the remote completion call as seen by `fetchWordDetails`
after `response.text` and `JSON.parse`: either some step before the error
check threw (transport/API failure, or `JSON.parse` on malformed text) with a
message, or the text parsed to a JSON value. -/
inductive ApiOutcome where
  | throwsBefore (msg : String)
  | returnsJson (data : Json)

/-- The wrapper the service catch-block puts around every failure:
`Failed to fetch details for "word": msg`. -/
def wrapFetchError (word msg : String) : String :=
  "Failed to fetch details for \"" ++ word ++ "\": " ++ msg

/-- The message thrown when a required field is missing or falsy. -/
def incompleteMsg : String := "Received incomplete data from the API."

/-- The engine TypeError message for reading a property of `null` (thrown by
`data.error` when `JSON.parse` returned `null`; the exact engine wording is
immaterial to every claim). -/
def nullAccessMsg : String := "Cannot read properties of null (reading error)"

/-- The truthiness test `data.k` used by the validation step: the field must
be present and its value truthy. -/
def requiredFieldTruthy (data : Json) (k : String) : Bool :=
  match getField data k with
  | some v => jsTruthy v
  | none => false

/-- `fetchWordDetails` from the Gemini service module, as a function of the
searched word and the outcome of the completion call.  Mirrors the source:
any throw inside the try block (transport, parse, `data.error` truthy,
incomplete data) is caught and rewrapped with `wrapFetchError`; on success the
parsed value `data` itself is returned (the TypeScript `as WordDetails` cast
performs no transformation). -/
def fetchWordDetails (word : String) (o : ApiOutcome) : Except String Json :=
  match o with
  | .throwsBefore m => .error (wrapFetchError word m)
  | .returnsJson .null => .error (wrapFetchError word nullAccessMsg)
  | .returnsJson data =>
    let errVal := (getField data "error").getD .null
    if jsTruthy errVal then
      .error (wrapFetchError word (jsToString errVal))
    else if requiredFieldTruthy data "syllabification" &&
            requiredFieldTruthy data "etymology" &&
            requiredFieldTruthy data "synonyms" &&
            requiredFieldTruthy data "forms" then
      .ok data
    else
      .error (wrapFetchError word incompleteMsg)

/-- The interaction state of the `App` component: one field per `useState`
hook, in source order. -/
structure AppState where
  wordToSearch : String
  currentWord : Option String
  wordDetails : Option Json
  similarWords : List String
  newSimilarWord : String
  isLoading : Bool
  error : Option String
  savedWords : List SavedWord
  isSidebarOpen : Bool

/-- The initial state of the component (the `useState` defaults). -/
def initialState : AppState :=
  { wordToSearch := ""
    currentWord := none
    wordDetails := none
    similarWords := []
    newSimilarWord := ""
    isLoading := false
    error := none
    savedWords := []
    isSidebarOpen := false }

/-- `executeSearch` from `App.tsx`, as the state transformation observed once
the async handler has run to completion for the given fetch outcome.  Empty
or whitespace-only input returns before any state update; otherwise the
search-scoped state is reset, the word is trimmed and lower-cased, and the
fetch result either installs the details or records the error message and
clears the current word; `finally` clears the loading flag. -/
def executeSearch (s : AppState) (input : String) (o : ApiOutcome) : AppState :=
  if jsTrim input = "" then s
  else
    match fetchWordDetails (jsToLowerCase (jsTrim input)) o with
    | .ok d =>
      { s with isLoading := false, error := none, wordDetails := some d,
               currentWord := some (jsToLowerCase (jsTrim input)), similarWords := [] }
    | .error m =>
      { s with isLoading := false, error := some m, wordDetails := none,
               currentWord := none, similarWords := [] }

/-- `handleAddSimilarWord` from `App.tsx`: append the trimmed annotation when
it is non-empty and not already present, and clear the input; otherwise do
nothing. -/
def handleAddSimilarWord (s : AppState) : AppState :=
  if jsTrim s.newSimilarWord != "" && !(s.similarWords.contains (jsTrim s.newSimilarWord)) then
    { s with similarWords := s.similarWords ++ [jsTrim s.newSimilarWord], newSimilarWord := "" }
  else s

/-- `handleSaveWord` from `App.tsx`: when a word and details are displayed
(both truthy in JavaScript) and no entry with that word is saved yet, prepend
a new entry built from the current word, details and similar-words list. -/
def handleSaveWord (s : AppState) : AppState :=
  match s.currentWord, s.wordDetails with
  | some w, some d =>
    if w != "" && jsTruthy d && !(s.savedWords.any fun sw => sw.word == w) then
      { s with savedWords := { word := w, details := d, similarWords := s.similarWords } :: s.savedWords }
    else s
  | _, _ => s

/-- `handleDeleteWord` from `App.tsx`: keep exactly the entries whose word
differs from the deleted key. -/
def handleDeleteWord (s : AppState) (wordToDelete : String) : AppState :=
  { s with savedWords := s.savedWords.filter fun sw => sw.word != wordToDelete }

/-- `handleSelectSavedWord` from `App.tsx`: restore a saved entry into the
display state. -/
def handleSelectSavedWord (s : AppState) (sw : SavedWord) : AppState :=
  { s with currentWord := some sw.word, wordDetails := some sw.details,
           similarWords := sw.similarWords, wordToSearch := sw.word,
           isSidebarOpen := false, error := none, isLoading := false }

/-- The JSON value `JSON.stringify` produces for one saved entry (object
literal key order as in `handleSaveWord`; stringify-then-parse is the
identity on such values, so the store is modelled at the JSON-value level). -/
def encodeSavedWord (sw : SavedWord) : Json :=
  .obj [("word", .str sw.word),
        ("details", sw.details),
        ("similarWords", .arr (sw.similarWords.map .str))]

/-- The JSON value persisted under the storage key for a whole collection. -/
def encodeSavedWords (l : List SavedWord) : Json :=
  .arr (l.map encodeSavedWord)

/-- Structural reading of a JSON array of strings (the `similarWords` field). -/
def decodeStringList : List Json → Option (List String)
  | [] => some []
  | .str s :: rest => (decodeStringList rest).map (s :: ·)
  | _ => none

/-- Structural reading of one persisted saved entry. -/
def decodeSavedWord (j : Json) : Option SavedWord :=
  match getField j "word", getField j "details", getField j "similarWords" with
  | some (.str w), some d, some (.arr sws) =>
    (decodeStringList sws).map fun l => { word := w, details := d, similarWords := l }
  | _, _, _ => none

/-- Structural reading of a persisted list of saved entries. -/
def decodeSavedWordList : List Json → Option (List SavedWord)
  | [] => some []
  | j :: rest =>
    match decodeSavedWord j with
    | some sw => (decodeSavedWordList rest).map (sw :: ·)
    | none => none

/-- Structural reading of the whole persisted collection. -/
def decodeSavedWords (j : Json) : Option (List SavedWord) :=
  match j with
  | .arr items => decodeSavedWordList items
  | _ => none

/-- The content of the local storage slot for the saved-words key: absent
(`getItem` returns null), text that `JSON.parse` rejects, or text that parses
to the given JSON value. -/
inductive StoredState where
  | absent
  | corrupt
  | stored (j : Json)

/-- The persistence effect of `App.tsx` (the `useEffect` writing on every
`savedWords` mutation): serialize the collection and store it under the fixed
key. -/
def persistSave (l : List SavedWord) : StoredState :=
  .stored (encodeSavedWords l)

/-- The startup load effect of `App.tsx`: an absent key leaves the state
untouched (the `if (saved)` guard fails) and a parse failure is caught and
logged, also leaving the state untouched; a parsed value is installed via an
unchecked cast, representable in this embedding exactly when the value has
saved-word-list shape (an ill-shaped value would install an ill-typed object
outside this state space, and no claim exercises that case). -/
def loadSavedWordsEffect (s : AppState) : StoredState → AppState
  | .absent => s
  | .corrupt => s
  | .stored j =>
    match decodeSavedWords j with
    | some l => { s with savedWords := l }
    | none => s

/-- The saved collection is unique by its `word` key. -/
def UniqueByWord (l : List SavedWord) : Prop :=
  (l.map fun sw => sw.word).Nodup

/-- The states the application can reach: the initial mount, every interaction
handler, and a fresh session restored from a collection the application itself
persisted. -/
inductive Reachable : AppState → Prop where
  | init : Reachable initialState
  | typeSearch (s : AppState) (t : String) : Reachable s → Reachable { s with wordToSearch := t }
  | typeSimilar (s : AppState) (t : String) : Reachable s → Reachable { s with newSimilarWord := t }
  | sidebar (s : AppState) (b : Bool) : Reachable s → Reachable { s with isSidebarOpen := b }
  | search (s : AppState) (input : String) (o : ApiOutcome) :
      Reachable s → Reachable (executeSearch s input o)
  | save (s : AppState) : Reachable s → Reachable (handleSaveWord s)
  | del (s : AppState) (w : String) : Reachable s → Reachable (handleDeleteWord s w)
  | add (s : AppState) : Reachable s → Reachable (handleAddSimilarWord s)
  | select (s : AppState) (sw : SavedWord) :
      sw ∈ s.savedWords → Reachable s → Reachable (handleSelectSavedWord s sw)
  | reload (s : AppState) :
      Reachable s → Reachable (loadSavedWordsEffect initialState (persistSave s.savedWords))

/-- A required field is absent from the parsed object, or present with a
JavaScript-falsy value. -/
def absentOrFalsy (data : Json) (k : String) : Prop :=
  ∀ v, getField data k = some v → jsTruthy v = false

/-- A well-formed completion response carrying the four required fields
(concrete test value). -/
def goodData : Json :=
  .obj [("pos", .str "adjective"), ("syllabification", .str "beau-ti-ful"),
        ("pronunciation", .str "bjutfl"),
        ("etymology", .obj [("root", .str "bellus")]),
        ("synonyms", .arr []), ("forms", .arr [.obj [("word", .str "beauty")]])]

/-- A response object carrying an `error` field whose value is the empty
string (falsy), together with all four required fields (concrete test
value exercising the truthiness check). -/
def emptyErrorData : Json :=
  .obj [("error", .str ""), ("syllabification", .str "te-st"),
        ("etymology", .obj []), ("synonyms", .arr []), ("forms", .arr [])]

/-- A response object the model returns for an invalid word (concrete test
value). -/
def modelErrorData : Json := .obj [("error", .str "not a word")]

/-- A response object whose four required fields are all present but whose
`syllabification` is the empty string (concrete test value). -/
def falsyFieldData : Json :=
  .obj [("syllabification", .str ""), ("etymology", .obj [("root", .str "r")]),
        ("synonyms", .arr []), ("forms", .arr [])]

/-- A response object missing the `forms` field (concrete test value). -/
def missingFormsKvs : List (String × Json) :=
  [("syllabification", .str "a-b"), ("etymology", .obj [("root", .str "r")]),
   ("synonyms", .arr [])]

/-- A details snapshot used by the concrete saved-words states. -/
def detailsStub : Json := .obj [("pos", .str "noun")]

/-- A previously saved entry (concrete test value). -/
def oldEntry : SavedWord := { word := "old", details := detailsStub, similarWords := ["x"] }

/-- A state displaying the fresh word `new` with one prior saved entry
(concrete test value). -/
def preSaveState : AppState :=
  { initialState with currentWord := some "new", wordDetails := some detailsStub,
                      savedWords := [oldEntry] }

/-- A state whose displayed word `old` is already saved (concrete test
value). -/
def alreadySavedState : AppState :=
  { initialState with currentWord := some "old", wordDetails := some detailsStub,
                      similarWords := ["y"], savedWords := [oldEntry] }

/-- A state with a pending similar-word annotation (concrete test value). -/
def addSimilarState : AppState :=
  { initialState with currentWord := some "old", similarWords := ["abc"],
                      newSimilarWord := "  def " }

/-- A search never touches the saved-words collection. -/
lemma executeSearch_savedWords (s : AppState) (input : String) (o : ApiOutcome) :
    (executeSearch s input o).savedWords = s.savedWords := by
  unfold executeSearch
  split
  · rfl
  · split <;> rfl

/-- Adding a similar-word annotation never touches the saved-words collection. -/
lemma handleAddSimilarWord_savedWords (s : AppState) :
    (handleAddSimilarWord s).savedWords = s.savedWords := by
  unfold handleAddSimilarWord
  split <;> rfl

/-- Reading an array of encoded strings back yields the original list. -/
lemma decodeStringList_map (l : List String) :
    decodeStringList (l.map .str) = some l := by
  induction l with
  | nil => rfl
  | cons a as ih => simp [decodeStringList, ih]

/-- Reading one encoded saved entry back yields the original entry. -/
lemma decodeSavedWord_encode (sw : SavedWord) :
    decodeSavedWord (encodeSavedWord sw) = some sw := by
  show (decodeStringList (sw.similarWords.map .str)).map _ = some sw
  rw [decodeStringList_map]
  rfl

/-- Reading the encoded collection back yields the original collection. -/
lemma decodeSavedWords_encode (l : List SavedWord) :
    decodeSavedWords (encodeSavedWords l) = some l := by
  show decodeSavedWordList (l.map encodeSavedWord) = some l
  induction l with
  | nil => rfl
  | cons sw rest ih => simp [decodeSavedWordList, decodeSavedWord_encode, ih]

/-- Saving when an entry with the displayed word already exists changes
nothing. -/
lemma handleSaveWord_noop (s : AppState) (w : String) (hc : s.currentWord = some w)
    (hmem : (s.savedWords.any fun e => e.word == w) = true) :
    handleSaveWord s = s := by
  unfold handleSaveWord
  rw [hc]
  cases s.wordDetails with
  | none => rfl
  | some d => simp [hmem]

/-- Saving preserves uniqueness of the saved collection by word. -/
lemma uniqueByWord_save (s : AppState) (h : UniqueByWord s.savedWords) :
    UniqueByWord (handleSaveWord s).savedWords := by
  unfold UniqueByWord handleSaveWord
  split
  · split
    · rename_i w d hcond
      simp only [List.map_cons, List.nodup_cons]
      refine ⟨?_, h⟩
      simp only [Bool.and_eq_true, Bool.not_eq_true', List.any_eq_false] at hcond
      intro hmem
      rcases List.mem_map.mp hmem with ⟨e, he, hew⟩
      have := hcond.2 e he
      simp [hew] at this
    · exact h
  · exact h

/-- Deleting preserves uniqueness of the saved collection by word. -/
lemma uniqueByWord_delete (s : AppState) (w : String) (h : UniqueByWord s.savedWords) :
    UniqueByWord (handleDeleteWord s w).savedWords := by
  unfold UniqueByWord handleDeleteWord at *
  exact h.sublist ((List.filter_sublist _).map _)

/-- Reloading a collection the application itself persisted restores it into
the fresh initial state. -/
lemma load_persistSave (s : AppState) (l : List SavedWord) :
    loadSavedWordsEffect s (persistSave l) = { s with savedWords := l } := by
  simp [loadSavedWordsEffect, persistSave, decodeSavedWords_encode]

/-- Every reachable state has a saved collection that is unique by word. -/
lemma reachable_uniqueByWord {s : AppState} (h : Reachable s) :
    UniqueByWord s.savedWords := by
  induction h with
  | init => simp [UniqueByWord, initialState]
  | typeSearch s t _ ih => exact ih
  | typeSimilar s t _ ih => exact ih
  | sidebar s b _ ih => exact ih
  | search s input o _ ih => rw [executeSearch_savedWords]; exact ih
  | save s _ ih => exact uniqueByWord_save s ih
  | del s w _ ih => exact uniqueByWord_delete s w ih
  | add s _ ih => rw [handleAddSimilarWord_savedWords]; exact ih
  | select s sw _ _ ih => exact ih
  | reload s _ ih => rw [load_persistSave]; exact ih

/-- C1: invoking save while an entry with the displayed word is already in
the collection is a no-op, and the saved collection is unique by word in
every reachable state, i.e. after every save, delete, or load operation
starting from the initial mount. -/
theorem saveExisting_noop_and_uniqueByWord :
    (∀ (s : AppState) (w : String), s.currentWord = some w →
      (s.savedWords.any fun e => e.word == w) = true → handleSaveWord s = s) ∧
    (∀ s : AppState, Reachable s → UniqueByWord s.savedWords) :=
  ⟨handleSaveWord_noop, fun _ h => reachable_uniqueByWord h⟩

/-- C1 witness: saving the already-saved word `old` leaves the concrete state
unchanged, and the initial collection is unique by word. -/
theorem saveExisting_noop_and_uniqueByWord_witness :
    handleSaveWord alreadySavedState = alreadySavedState ∧
    UniqueByWord initialState.savedWords :=
  ⟨saveExisting_noop_and_uniqueByWord.1 alreadySavedState "old" rfl (by decide),
   saveExisting_noop_and_uniqueByWord.2 initialState Reachable.init⟩

/-- C3: for input that trims to the empty string, the search handler returns
before any state update, leaving the whole interaction state unchanged. -/
theorem blankInput_search_noop (s : AppState) (input : String) (o : ApiOutcome)
    (h : jsTrim input = "") : executeSearch s input o = s := by
  unfold executeSearch
  rw [if_pos h]

/-- C3 witness: searching a whitespace-only string changes nothing. -/
theorem blankInput_search_noop_witness :
    executeSearch initialState "   " (.throwsBefore "network down") = initialState :=
  blankInput_search_noop initialState "   " (.throwsBefore "network down") (by decide)

/-- C6: deleting a word keeps the remaining entries in their original
relative order (the result is a sublist of the original) and keeps exactly
the entries whose word differs from the deleted key. -/
theorem delete_removes_exactly_matching (s : AppState) (w : String) :
    (handleDeleteWord s w).savedWords.Sublist s.savedWords ∧
    ∀ e, e ∈ (handleDeleteWord s w).savedWords ↔ e ∈ s.savedWords ∧ e.word ≠ w := by
  refine ⟨List.filter_sublist _, fun e => ?_⟩
  simp [handleDeleteWord, List.mem_filter]

/-- C7: serializing a saved collection through the persistence layer and
loading it back restores exactly the same ordered collection. -/
theorem persistence_roundtrip_lossless (s : AppState) (l : List SavedWord) :
    (loadSavedWordsEffect s (persistSave l)).savedWords = l := by
  rw [load_persistSave]

/-- C8: when the storage key is absent or its content does not parse as
JSON, the load effect leaves the state untouched; in particular, from the
initial mount the saved collection stays empty, no user-visible error is
set, and the loading flag stays clear. -/
theorem load_failure_swallowed (s : AppState) :
    loadSavedWordsEffect s .absent = s ∧
    loadSavedWordsEffect s .corrupt = s ∧
    (loadSavedWordsEffect initialState .absent).savedWords = [] ∧
    (loadSavedWordsEffect initialState .corrupt).savedWords = [] ∧
    (loadSavedWordsEffect initialState .absent).error = none ∧
    (loadSavedWordsEffect initialState .corrupt).error = none ∧
    (loadSavedWordsEffect initialState .absent).isLoading = false ∧
    (loadSavedWordsEffect initialState .corrupt).isLoading = false :=
  ⟨rfl, rfl, rfl, rfl, rfl, rfl, rfl, rfl⟩

/-- C4: for input that trims to a non-empty word whose fetch succeeds, the
search sets the displayed current word to the lower-cased, trimmed input and
resets the user similar-words list to the empty list (the fetched details are
installed as returned). -/
theorem successfulSearch_sets_word_resets_similar (s : AppState) (input : String)
    (o : ApiOutcome) (d : Json) (h1 : jsTrim input ≠ "")
    (h2 : fetchWordDetails (jsToLowerCase (jsTrim input)) o = .ok d) :
    (executeSearch s input o).currentWord = some (jsToLowerCase (jsTrim input)) ∧
    (executeSearch s input o).similarWords = [] ∧
    (executeSearch s input o).wordDetails = some d := by
  unfold executeSearch
  rw [if_neg h1, h2]
  exact ⟨rfl, rfl, rfl⟩

/-- C4 witness: a successful search for `  Beautiful ` displays `beautiful`
with an empty similar-words list, from a state that had a non-empty one. -/
theorem successfulSearch_sets_word_resets_similar_witness :
    (executeSearch addSimilarState "  Beautiful " (.returnsJson goodData)).currentWord =
      some (jsToLowerCase (jsTrim "  Beautiful ")) ∧
    (executeSearch addSimilarState "  Beautiful " (.returnsJson goodData)).similarWords = [] ∧
    (executeSearch addSimilarState "  Beautiful " (.returnsJson goodData)).wordDetails =
      some goodData :=
  successfulSearch_sets_word_resets_similar addSimilarState "  Beautiful "
    (.returnsJson goodData) goodData (by decide) rfl

/-- C9 counterexample: saving a new word with one prior saved entry yields
the new entry at the front of the collection, not appended at the end as the
claim states. -/
theorem save_prepends_counterexample :
    ((handleSaveWord preSaveState).savedWords.map fun sw => sw.word) = ["new", "old"] ∧
    ((handleSaveWord preSaveState).savedWords.map fun sw => sw.word) ≠
      (preSaveState.savedWords.map fun sw => sw.word) ++ ["new"] :=
  ⟨rfl, by decide⟩

/-- C9 amended: saving a displayed word not already in the collection
prepends the new entry at the front; the prior entries keep their relative
order after it. -/
theorem save_prepends_new_entry (s : AppState) (w : String) (d : Json)
    (hc : s.currentWord = some w) (hw : w ≠ "") (hd : s.wordDetails = some d)
    (ht : jsTruthy d = true)
    (hmem : (s.savedWords.any fun e => e.word == w) = false) :
    (handleSaveWord s).savedWords =
      { word := w, details := d, similarWords := s.similarWords } :: s.savedWords := by
  unfold handleSaveWord
  rw [hc, hd]
  simp [hmem, ht, hw]

/-- C9 witness: saving the displayed word `new` over one prior entry yields
the new entry followed by the prior one. -/
theorem save_prepends_new_entry_witness :
    (handleSaveWord preSaveState).savedWords =
      { word := "new", details := detailsStub, similarWords := [] } :: preSaveState.savedWords :=
  save_prepends_new_entry preSaveState "new" detailsStub rfl (by decide) rfl rfl (by decide)

/-- The submit guard of the similar-word form, in propositional form. -/
lemma addSimilarGuard_iff (t : String) (l : List String) :
    ((t != "" && !(l.contains t)) = true) ↔ (t ≠ "" ∧ t ∉ l) := by
  simp [List.elem_iff]

/-- C10: submitting a similar-word annotation is a complete no-op when the
trimmed text is empty or already in the list; otherwise it appends exactly
the trimmed text at the end and clears the input; and the operation preserves
freedom from duplicates, so a list built only by it never contains
duplicates. -/
theorem addSimilarWord_noop_append_nodup (s : AppState) :
    ((jsTrim s.newSimilarWord = "" ∨ jsTrim s.newSimilarWord ∈ s.similarWords) →
      handleAddSimilarWord s = s) ∧
    (jsTrim s.newSimilarWord ≠ "" → jsTrim s.newSimilarWord ∉ s.similarWords →
      (handleAddSimilarWord s).similarWords =
        s.similarWords ++ [jsTrim s.newSimilarWord] ∧
      (handleAddSimilarWord s).newSimilarWord = "") ∧
    (s.similarWords.Nodup → (handleAddSimilarWord s).similarWords.Nodup) := by
  unfold handleAddSimilarWord
  refine ⟨fun h => ?_, fun h1 h2 => ?_, fun hn => ?_⟩
  · have hng : ¬ ((jsTrim s.newSimilarWord != "" &&
        !(s.similarWords.contains (jsTrim s.newSimilarWord))) = true) := by
      rw [addSimilarGuard_iff]
      rintro ⟨hne, hnm⟩
      rcases h with h | h
      · exact hne h
      · exact hnm h
    rw [if_neg hng]
  · rw [if_pos ((addSimilarGuard_iff _ _).mpr ⟨h1, h2⟩)]
    exact ⟨rfl, rfl⟩
  · split
    · rename_i hcond
      have hg := (addSimilarGuard_iff _ _).mp hcond
      simp [List.nodup_append, hn, hg.2]
    · exact hn

/-- C10 witness: with pending text `  def ` and list `[abc]`, submission
appends `def`, clears the input, and keeps the list duplicate-free; the
operation is also a no-op once `def` is in the list. -/
theorem addSimilarWord_noop_append_nodup_witness :
    ((handleAddSimilarWord addSimilarState).similarWords = ["abc"] ++ ["def"] ∧
      (handleAddSimilarWord addSimilarState).newSimilarWord = "") ∧
    (handleAddSimilarWord addSimilarState).similarWords.Nodup ∧
    handleAddSimilarWord { addSimilarState with similarWords := ["abc", "def"] } =
      { addSimilarState with similarWords := ["abc", "def"] } :=
  ⟨(addSimilarWord_noop_append_nodup addSimilarState).2.1 (by decide) (by decide),
   (addSimilarWord_noop_append_nodup addSimilarState).2.2 (by decide),
   (addSimilarWord_noop_append_nodup
      { addSimilarState with similarWords := ["abc", "def"] }).1 (Or.inr (by decide))⟩

/-- The validation truthiness test fails exactly on fields that are absent or
falsy. -/
lemma requiredFieldTruthy_false_iff (data : Json) (k : String) :
    requiredFieldTruthy data k = false ↔ absentOrFalsy data k := by
  cases h : getField data k with
  | none => simp [requiredFieldTruthy, absentOrFalsy, h]
  | some v => simp [requiredFieldTruthy, absentOrFalsy, h]

/-- A field passing the validation truthiness test is neither absent nor
falsy. -/
lemma requiredFieldTruthy_true_not (data : Json) (k : String)
    (h : requiredFieldTruthy data k = true) : ¬ absentOrFalsy data k := by
  intro ha
  cases hg : getField data k with
  | none => simp [requiredFieldTruthy, hg] at h
  | some v => simp [requiredFieldTruthy, hg, ha v hg] at h

/-- On a parsed object whose `error` field is not truthy, the fetch reduces
to the four-field validation step. -/
lemma fetch_reduces_to_validation (w : String) (kvs : List (String × Json))
    (herr : jsTruthy ((getField (.obj kvs) "error").getD .null) = false) :
    fetchWordDetails w (.returnsJson (.obj kvs)) =
      (if requiredFieldTruthy (.obj kvs) "syllabification" &&
          requiredFieldTruthy (.obj kvs) "etymology" &&
          requiredFieldTruthy (.obj kvs) "synonyms" &&
          requiredFieldTruthy (.obj kvs) "forms" then .ok (.obj kvs)
       else .error (wrapFetchError w incompleteMsg)) := by
  simp only [fetchWordDetails]
  rw [if_neg (by simp [herr])]

/-- C5 counterexample: a response whose four required fields are all present
but whose `syllabification` is the empty string still fails the validation
with the incomplete-data error, refuting the claim that the failure happens
if and only if a field is absent. -/
theorem validation_falsyField_counterexample :
    (getField falsyFieldData "syllabification").isSome = true ∧
    (getField falsyFieldData "etymology").isSome = true ∧
    (getField falsyFieldData "synonyms").isSome = true ∧
    (getField falsyFieldData "forms").isSome = true ∧
    getField falsyFieldData "error" = none ∧
    fetchWordDetails "w" (.returnsJson falsyFieldData) =
      .error (wrapFetchError "w" incompleteMsg) :=
  ⟨rfl, rfl, rfl, rfl, rfl, rfl⟩

/-- C5 amended: on a parsed object without a truthy `error` field, the fetch
fails with the incomplete-data error if and only if one of the four required
fields is absent or carries a falsy value; on success the parsed object is
returned unchanged. -/
theorem validationFailure_iff_absentOrFalsy (w : String) (kvs : List (String × Json))
    (herr : jsTruthy ((getField (.obj kvs) "error").getD .null) = false) :
    (fetchWordDetails w (.returnsJson (.obj kvs)) =
        .error (wrapFetchError w incompleteMsg) ↔
      (absentOrFalsy (.obj kvs) "syllabification" ∨ absentOrFalsy (.obj kvs) "etymology" ∨
       absentOrFalsy (.obj kvs) "synonyms" ∨ absentOrFalsy (.obj kvs) "forms")) ∧
    (∀ d, fetchWordDetails w (.returnsJson (.obj kvs)) = .ok d → d = .obj kvs) := by
  rw [fetch_reduces_to_validation w kvs herr]
  constructor
  · cases hall : (requiredFieldTruthy (.obj kvs) "syllabification" &&
        requiredFieldTruthy (.obj kvs) "etymology" &&
        requiredFieldTruthy (.obj kvs) "synonyms" &&
        requiredFieldTruthy (.obj kvs) "forms") with
    | true =>
      rw [if_pos rfl]
      simp only [Bool.and_eq_true] at hall
      obtain ⟨⟨⟨h1, h2⟩, h3⟩, h4⟩ := hall
      simp [requiredFieldTruthy_true_not _ _ h1, requiredFieldTruthy_true_not _ _ h2,
            requiredFieldTruthy_true_not _ _ h3, requiredFieldTruthy_true_not _ _ h4]
    | false =>
      rw [if_neg (by simp)]
      simp only [Bool.and_eq_false_iff] at hall
      simp only [requiredFieldTruthy_false_iff] at hall
      constructor
      · intro _
        rcases hall with ((h | h) | h) | h
        · exact Or.inl h
        · exact Or.inr (Or.inl h)
        · exact Or.inr (Or.inr (Or.inl h))
        · exact Or.inr (Or.inr (Or.inr h))
      · intro _; rfl
  · intro d hd
    split at hd
    · exact (Except.ok.inj hd).symm
    · exact Except.noConfusion hd

/-- C5 witness: a response missing the `forms` field fails with the
incomplete-data error. -/
theorem validationFailure_iff_absentOrFalsy_witness :
    fetchWordDetails "w" (.returnsJson (.obj missingFormsKvs)) =
      .error (wrapFetchError "w" incompleteMsg) :=
  (validationFailure_iff_absentOrFalsy "w" missingFormsKvs rfl).1.mpr
    (Or.inr (Or.inr (Or.inr (fun v h => by
      rw [show getField (Json.obj missingFormsKvs) "forms" = none from rfl] at h
      exact Option.noConfusion h))))

/-- On a parsed object, the fetch reduces to the error-field check followed
by the validation step. -/
lemma fetchWordDetails_obj (w : String) (kvs : List (String × Json)) :
    fetchWordDetails w (.returnsJson (.obj kvs)) =
      (if jsTruthy ((getField (.obj kvs) "error").getD .null) then
        .error (wrapFetchError w (jsToString ((getField (.obj kvs) "error").getD .null)))
      else if requiredFieldTruthy (.obj kvs) "syllabification" &&
              requiredFieldTruthy (.obj kvs) "etymology" &&
              requiredFieldTruthy (.obj kvs) "synonyms" &&
              requiredFieldTruthy (.obj kvs) "forms" then .ok (.obj kvs)
      else .error (wrapFetchError w incompleteMsg)) := rfl

/-- C2 counterexample: a response object carrying an `error` field whose
value is the empty string (falsy) passes the error check, so the fetch
succeeds and the search leaves the current word displayed, refuting the
claim for responses merely carrying an `error` field. -/
theorem errorField_fetch_succeeds_counterexample :
    (getField emptyErrorData "error").isSome = true ∧
    fetchWordDetails "test" (.returnsJson emptyErrorData) = .ok emptyErrorData ∧
    (executeSearch initialState "test" (.returnsJson emptyErrorData)).currentWord =
      some "test" ∧
    (executeSearch initialState "test" (.returnsJson emptyErrorData)).error = none :=
  ⟨rfl, rfl, rfl, rfl⟩

/-- C2 amended: for a response object carrying an `error` field with a
non-empty (truthy) string value, the fetch fails with a message containing
that error text, and the search records that message and clears the current
word. -/
theorem truthyErrorField_fails_and_clearsWord (s : AppState) (input : String)
    (data : Json) (m : String) (h1 : jsTrim input ≠ "")
    (h2 : getField data "error" = some (.str m)) (h3 : m ≠ "") :
    ∃ rest : String,
      fetchWordDetails (jsToLowerCase (jsTrim input)) (.returnsJson data) =
        .error (rest ++ m) ∧
      (executeSearch s input (.returnsJson data)).error = some (rest ++ m) ∧
      (executeSearch s input (.returnsJson data)).currentWord = none := by
  have hfetch : fetchWordDetails (jsToLowerCase (jsTrim input)) (.returnsJson data) =
      .error (wrapFetchError (jsToLowerCase (jsTrim input)) m) := by
    cases data with
    | obj kvs =>
      rw [fetchWordDetails_obj, h2]
      rw [if_pos (by simp [jsTruthy, h3])]
      simp [jsToString]
    | null => simp [getField] at h2
    | bool b => simp [getField] at h2
    | num n => simp [getField] at h2
    | str s2 => simp [getField] at h2
    | arr xs => simp [getField] at h2
  refine ⟨"Failed to fetch details for \"" ++ jsToLowerCase (jsTrim input) ++ "\": ",
    ?_, ?_, ?_⟩
  · rw [hfetch]
    simp [wrapFetchError, String.append_assoc]
  · unfold executeSearch
    rw [if_neg h1, hfetch]
    simp [wrapFetchError, String.append_assoc]
  · unfold executeSearch
    rw [if_neg h1, hfetch]

/-- C2 witness: a `not a word` model response makes the search fail with a
message ending in `not a word` and clears the current word. -/
theorem truthyErrorField_fails_and_clearsWord_witness :
    ∃ rest : String,
      fetchWordDetails (jsToLowerCase (jsTrim "Zzzz")) (.returnsJson modelErrorData) =
        .error (rest ++ "not a word") ∧
      (executeSearch initialState "Zzzz" (.returnsJson modelErrorData)).error =
        some (rest ++ "not a word") ∧
      (executeSearch initialState "Zzzz" (.returnsJson modelErrorData)).currentWord = none :=
  truthyErrorField_fails_and_clearsWord initialState "Zzzz" modelErrorData "not a word"
    (by decide) rfl (by decide)
